import Mathlib

/-!
# Verification of the standings aggregator of `app.py`

This file gives a shallow embedding, in Lean 4, of the standings-aggregation
routine `compute_standings_from_csv` of `src/app.py` (together with its helpers
`safe_int` and `compute_streak`), and proves properties of the embedding.

Modelling conventions:
* A CSV row produced by Python's `csv.DictReader` maps each column name to a
  string; a missing column yields `None`.  We model each field a row exposes
  as `Option String` (`none` = the key is absent / the value is `None`).
* Python truthiness of such a field (`if not gid`) is `none` or `some ""`.
* Python's `int(s)` (which strips whitespace and accepts an optional sign) is
  modelled by `pyInt?`, returning `none` where Python raises `ValueError`.
* Python's `float` division `wins / games_played` is modelled exactly with
  `Rat`; for the magnitudes that occur (small integer counts) the double
  rounding never affects any claim stated here, and equalities/orderings of
  the embedded `win_pct` are exact rational facts.
* Python dicts preserve insertion order; association lists (`List (key × val)`)
  with append-at-end insertion model them.
* `list.sort(key=...)` is a stable sort by the key tuple; it is modelled by
  `List.mergeSort` with the boolean lexicographic comparison `keyLe`.
* The `try/except` wrapper at the top of `compute_standings_from_csv` is
  modelled by `standingsTop` over an `Except`-valued body: `Except.error`
  stands for "the body raised".
-/

/-- A per-team-per-game CSV record as seen by `compute_standings_from_csv`
(fields `GAME_ID`, `TEAM_ID`, `TEAM_ABBREVIATION`, `TEAM_NAME`, `PTS`,
`MATCHUP` of a `csv.DictReader` row). -/
structure Row where
  game_id : Option String
  team_id : Option String
  team_abbreviation : Option String
  team_name : Option String
  pts : Option String
  matchup : Option String
deriving Repr, DecidableEq

/-- Python truthiness of an optional string field: `False` iff `None` or `""`. -/
def truthy : Option String → Bool
  | none => false
  | some s => s ≠ ""

/-- `x or y` on two optional string fields, as in `a.get("MATCHUP") or
b.get("MATCHUP") or ""`: the first truthy value, defaulting to `""`. -/
def firstTruthy (x y : Option String) : String :=
  match x with
  | some s => if s = "" then (match y with | some t => t | none => "") else s
  | none => match y with | some t => t | none => ""

/-- Interpret a list of characters as a decimal numeral (all digits, nonempty). -/
def digitsToNat? (cs : List Char) : Option Nat :=
  if cs = [] then none
  else if cs.all Char.isDigit then
    some (cs.foldl (fun n c => n * 10 + (c.toNat - 48)) 0)
  else none

/-- Strip leading and trailing whitespace from a character list (the
stripping Python's `int` applies to its argument). -/
def pyStrip (cs : List Char) : List Char :=
  ((cs.dropWhile Char.isWhitespace).reverse.dropWhile Char.isWhitespace).reverse

/-- Python `int(s)` on a string: strip surrounding whitespace, allow one
optional sign, then decimal digits; `none` models `ValueError`.  (Python also
allows underscores between digits; that fringe is not modelled.) -/
def pyInt? (s : String) : Option Int :=
  match pyStrip s.toList with
  | '-' :: rest => (digitsToNat? rest).map (fun n => -(n : Int))
  | '+' :: rest => (digitsToNat? rest).map (fun n => (n : Int))
  | cs => (digitsToNat? cs).map (fun n => (n : Int))

/-- `int(row.get("PTS") or 0)`: a missing or empty `PTS` field becomes `0`;
otherwise Python `int` parsing, with `none` modelling the `ValueError` that
makes the caller skip the game. -/
def parsePts : Option String → Option Int
  | none => some 0
  | some s => if s = "" then some 0 else pyInt? s

/-- Worker for `pySplit`: scan the characters, accumulating the current
(reversed) token, emitting it at each whitespace boundary. -/
def pySplitAux : List Char → List Char → List String
  | [], acc => if acc = [] then [] else [String.mk acc.reverse]
  | c :: cs, acc =>
    if c.isWhitespace then
      if acc = [] then pySplitAux cs [] else String.mk acc.reverse :: pySplitAux cs []
    else pySplitAux cs (c :: acc)

/-- Python `str.split()` with no separator: split on runs of whitespace,
discarding empty pieces. -/
def pySplit (s : String) : List String :=
  pySplitAux s.toList []

/-- The loop of `compute_streak`: scan the (already reversed) result list and
count elements equal to `last`, stopping at the first mismatch (`break`). -/
def countRun (last : String) : List String → Nat
  | [] => 0
  | r :: rs => if r = last then countRun last rs + 1 else 0

/-- `compute_streak` of `app.py`: `""` on an empty list, otherwise a sign
(`"+"` iff the last result is `"W"`) followed by the length of the trailing
run of results equal to the last one. -/
def compute_streak (results : List String) : String :=
  match results.getLast? with
  | none => ""
  | some last =>
    let count := countRun last results.reverse
    let sign := if last = "W" then "+" else "-"
    sign ++ toString count

/-- `CONF_BY_TRICODE` of `app.py`: the static tricode → conference table. -/
def CONF_BY_TRICODE : List (String × String) :=
  [("ATL", "East"), ("BOS", "East"), ("BKN", "East"), ("CHA", "East"),
   ("CHI", "East"), ("CLE", "East"), ("DET", "East"), ("IND", "East"),
   ("MIA", "East"), ("MIL", "East"), ("NYK", "East"), ("ORL", "East"),
   ("PHI", "East"), ("TOR", "East"), ("WAS", "East"),
   ("DAL", "West"), ("DEN", "West"), ("GSW", "West"), ("HOU", "West"),
   ("LAC", "West"), ("LAL", "West"), ("MEM", "West"), ("MIN", "West"),
   ("NOP", "West"), ("OKC", "West"), ("PHX", "West"), ("POR", "West"),
   ("SAC", "West"), ("SAS", "West"), ("UTA", "West")]

/-- `CONF_BY_TRICODE.get(tricode, "")`. -/
def confOf (tricode : Option String) : String :=
  match tricode with
  | none => ""
  | some t => ((CONF_BY_TRICODE.find? (fun p => p.1 = t)).map Prod.snd).getD ""

/-- The mutable per-team accumulator created by `get_stats` inside
`compute_standings_from_csv` (field `away_w`/`away_l` keep the source names;
`results`/`home_results`/`away_results` grow by appending). -/
structure Stats where
  team_id : Option Int
  tricode : Option String
  team : Option String
  city : String
  name : Option String
  conf : String
  wins : Nat
  losses : Nat
  home_w : Nat
  home_l : Nat
  away_w : Nat
  away_l : Nat
  results : List String
  home_results : List String
  away_results : List String
deriving Repr, DecidableEq

/-- The fresh accumulator built by `get_stats` on first sight of a team. -/
def initStats (tid : String) (tri : String) (name : Option String) : Stats :=
  { team_id := pyInt? tid
    tricode := some tri
    team := name
    city := ""
    name := name
    conf := confOf (some tri)
    wins := 0, losses := 0
    home_w := 0, home_l := 0, away_w := 0, away_l := 0
    results := [], home_results := [], away_results := [] }

/-- One iteration of the accumulation loop body acting on a team's stats:
increment the win/loss counter, the matching home/away counter, and append the
result to the overall and to the side-specific result sequence. -/
def applyResult (is_home : Bool) (result : String) (s : Stats) : Stats :=
  let s :=
    if result = "W" then
      { s with wins := s.wins + 1
               home_w := if is_home then s.home_w + 1 else s.home_w
               away_w := if is_home then s.away_w else s.away_w + 1 }
    else
      { s with losses := s.losses + 1
               home_l := if is_home then s.home_l + 1 else s.home_l
               away_l := if is_home then s.away_l else s.away_l + 1 }
  { s with results := s.results ++ [result]
           home_results := if is_home then s.home_results ++ [result] else s.home_results
           away_results := if is_home then s.away_results else s.away_results ++ [result] }

/-- `team_stats` is a Python dict `team_id → stats`; this is `get_stats`
followed by the mutation `f`: update in place if the key is present,
otherwise append the mutated fresh accumulator at the end (insertion order). -/
def updateStats (f : Stats → Stats) (init : Stats) (tid : String) :
    List (String × Stats) → List (String × Stats)
  | [] => [(tid, f init)]
  | (k, s) :: t =>
    if k = tid then (k, f s) :: t else (k, s) :: updateStats f init tid t

/-- One side of the per-game accumulation loop: skip when `TEAM_ID` or
`TEAM_ABBREVIATION` is falsy, otherwise record `result` for the team. -/
def recordResult (ts : List (String × Stats)) (row : Row) (is_home : Bool)
    (result : String) : List (String × Stats) :=
  match row.team_id, row.team_abbreviation with
  | some tid, some tri =>
    if tid = "" then ts
    else if tri = "" then ts
    else updateStats (applyResult is_home result) (initStats tid tri row.team_name) tid ts
  | _, _ => ts

/-- The home/away code inference from the matchup string of
`compute_standings_from_csv` (returns `(home_code, away_code)`): if the token
`"@"` occurs, first token = away and last = home; else with at least 3 tokens,
first = home and last = away; else each row's own abbreviation, positionally. -/
def inferCodes (matchup : String) (a b : Row) : Option String × Option String :=
  let parts := pySplit matchup
  if parts.contains "@" then
    (parts.getLast?, parts.head?)
  else if 3 ≤ parts.length then
    (parts.head?, parts.getLast?)
  else
    (a.team_abbreviation, b.team_abbreviation)

/-- `rows_by_code = {row.get("TEAM_ABBREVIATION"): row for row in team_rows}`
followed by `.get(code)`: on duplicate abbreviations the second row wins. -/
def lookupByCode (a b : Row) (code : Option String) : Option Row :=
  if b.team_abbreviation = code then some b
  else if a.team_abbreviation = code then some a
  else none

/-- `home_row = rows_by_code.get(home_code) or a` and
`away_row = rows_by_code.get(away_code) or b` (a present row is never falsy,
so `or` is exactly the `none` fallback). -/
def pickSides (a b : Row) (homeCode awayCode : Option String) : Row × Row :=
  ((lookupByCode a b homeCode).getD a, (lookupByCode a b awayCode).getD b)

/-- Process one game group (the body of `for gid, team_rows in games.items()`):
groups whose size is not exactly 2 are skipped; then matchup parsing, side
matching, point parsing (a `ValueError` skips the game), the tie check, and
the accumulation of both sides (home first, then away). -/
def processGroup (ts : List (String × Stats)) (team_rows : List Row) :
    List (String × Stats) :=
  match team_rows with
  | [a, b] =>
    let matchup := firstTruthy a.matchup b.matchup
    let codes := inferCodes matchup a b
    let sides := pickSides a b codes.1 codes.2
    let home_row := sides.1
    let away_row := sides.2
    match parsePts home_row.pts, parsePts away_row.pts with
    | some home_pts, some away_pts =>
      if home_pts > away_pts then
        recordResult (recordResult ts home_row true "W") away_row false "L"
      else if home_pts < away_pts then
        recordResult (recordResult ts home_row true "L") away_row false "W"
      else ts
    | _, _ => ts
  | _ => ts

/-- Grouping of the CSV rows by `GAME_ID` (`games = defaultdict(list)` filled
in file order): append the row to its game's list, creating the group at the
end on first sight; rows with a falsy `GAME_ID` are dropped. -/
def addToGroups (gs : List (String × List Row)) (gid : String) (r : Row) :
    List (String × List Row) :=
  match gs with
  | [] => [(gid, [r])]
  | (g, rs) :: t =>
    if g = gid then (g, rs ++ [r]) :: t else (g, rs) :: addToGroups t gid r

/-- The grouping pass of `compute_standings_from_csv`. -/
def groupByGid (rows : List Row) : List (String × List Row) :=
  rows.foldl
    (fun gs r =>
      match r.game_id with
      | none => gs
      | some g => if g = "" then gs else addToGroups gs g r)
    []

/-- One output row of the standings (the dict literal built in the
`# Construir linhas finais` block).  `win_pct` is modelled with `Rat`;
`league_rank` and `playoff_rank` are the constant `None` of the source. -/
structure StandRow where
  team_id : Option Int
  tricode : Option String
  team : Option String
  city : String
  name : Option String
  conf : String
  wins : Nat
  losses : Nat
  win_pct : Rat
  home_w : Nat
  home_l : Nat
  road_w : Nat
  road_l : Nat
  streak : String
  streak_home : String
  streak_away : String
  league_rank : Option Nat
  playoff_rank : Option Nat
deriving Repr, DecidableEq

/-- Building one final row from a team's accumulator, including the guarded
`win_pct = wins / games_played if games_played else 0.0` and the three
streak strings. -/
def mkRow (s : Stats) : StandRow :=
  let wins := s.wins
  let losses := s.losses
  let games_played := wins + losses
  let win_pct : Rat := if games_played = 0 then 0 else (wins : Rat) / (games_played : Rat)
  { team_id := s.team_id
    tricode := s.tricode
    team := s.team
    city := s.city
    name := s.name
    conf := s.conf
    wins := wins
    losses := losses
    win_pct := win_pct
    home_w := s.home_w
    home_l := s.home_l
    road_w := s.away_w
    road_l := s.away_l
    streak := compute_streak s.results
    streak_home := compute_streak s.home_results
    streak_away := compute_streak s.away_results
    league_rank := none
    playoff_rank := none }

/-- The comparison behind `rows_final.sort(key=lambda r: (-win_pct, -wins,
team or ""))`: Python's ascending lexicographic order on the key tuple,
i.e. descending `win_pct`, then descending `wins`, then `team or ""`
ascending. -/
def keyLe (r1 r2 : StandRow) : Bool :=
  if r1.win_pct = r2.win_pct then
    if r1.wins = r2.wins then decide ((r1.team.getD "") ≤ (r2.team.getD ""))
    else decide (r2.wins < r1.wins)
  else decide (r2.win_pct < r1.win_pct)

/-- The per-team accumulators after the whole grouping-and-accumulation pass,
in insertion order (= order of each team's first recorded result). -/
def teamStatsOf (rows : List Row) : List (String × Stats) :=
  (groupByGid rows).foldl (fun ts g => processGroup ts g.2) []

/-- `rows_final` before the final `sort` — one `StandRow` per accumulator,
in `team_stats` insertion order. -/
def unsortedStandings (rows : List Row) : List StandRow :=
  (teamStatsOf rows).map (fun p => mkRow p.2)

/-- The standings list returned by `compute_standings_from_csv` (the
non-exceptional path), after the stable sort. -/
def standingsBody (rows : List Row) : List StandRow :=
  (unsortedStandings rows).mergeSort keyLe

/-- `compute_standings_from_csv` on the already-read CSV rows: the pair
`(rows_final, warnings)`; the processing loop itself never appends a
warning, so the non-exceptional path returns an empty warnings list. -/
def compute_standings_from_csv (rows : List Row) : List StandRow × List String :=
  (standingsBody rows, [])

/-- The `try/except Exception` wrapper of `compute_standings_from_csv`: the
body either returns standings rows (`Except.ok`) or raises with message `e`
(`Except.error e`); the handler appends one warning built from the exception
text and blanks `rows_final`. -/
def standingsTop (body : Except String (List StandRow)) :
    List StandRow × List String :=
  match body with
  | Except.ok rows => (rows, [])
  | Except.error e => ([], ["Erro ao processar CSV de standings: " ++ e])

/-- Total wins over a standings list. -/
def sumWins (l : List StandRow) : Nat := (l.map (fun r => r.wins)).sum

/-- Total losses over a standings list. -/
def sumLosses (l : List StandRow) : Nat := (l.map (fun r => r.losses)).sum

/-- Total wins over the accumulator list. -/
def sumWinsTS (ts : List (String × Stats)) : Nat := (ts.map (fun p => p.2.wins)).sum

/-- Total losses over the accumulator list. -/
def sumLossesTS (ts : List (String × Stats)) : Nat := (ts.map (fun p => p.2.losses)).sum

/-- The distinct non-empty `GAME_ID`s of the input, in order of first
appearance. -/
def distinctGameIds (rows : List Row) : List String :=
  rows.foldl
    (fun acc r =>
      match r.game_id with
      | none => acc
      | some g => if g = "" then acc else if g ∈ acc then acc else acc ++ [g])
    []

/-- The well-formedness hypothesis of the sum-of-wins claim, per game group:
exactly two rows, truthy `TEAM_ID` and `TEAM_ABBREVIATION` on both, and the
two `PTS` fields present and parseable as distinct integers. -/
def wellFormedGroup (g : List Row) : Bool :=
  match g with
  | [r1, r2] =>
    truthy r1.team_id && truthy r1.team_abbreviation &&
    truthy r2.team_id && truthy r2.team_abbreviation &&
    (match r1.pts, r2.pts with
     | some s1, some s2 =>
       s1 ≠ "" && s2 ≠ "" &&
       (match pyInt? s1, pyInt? s2 with
        | some p, some q => decide (p ≠ q)
        | _, _ => false)
     | _, _ => false)
  | _ => false

/-- The side-matching of a two-row group assigns the two rows to distinct
sides (one row home, the other away), rather than the same row to both. -/
def sidesOk (g : List Row) : Bool :=
  match g with
  | [a, b] =>
    let codes := inferCodes (firstTruthy a.matchup b.matchup) a b
    let sides := pickSides a b codes.1 codes.2
    (sides.1 = a && sides.2 = b) || (sides.1 = b && sides.2 = a)
  | _ => false

/-- The `(home_row, away_row)` pair a two-row group is resolved to. -/
def gameSides (a b : Row) : Row × Row :=
  let codes := inferCodes (firstTruthy a.matchup b.matchup) a b
  pickSides a b codes.1 codes.2

/-- A well-formed game: `HOU` visiting `OKC`, `HOU` scoring 101 to 99. -/
def exRowHou : Row :=
  ⟨some "g1", some "10", some "HOU", some "Rockets", some "101", some "HOU @ OKC"⟩

/-- The other row of the well-formed game `exRowHou` plays in. -/
def exRowOkc : Row :=
  ⟨some "g1", some "20", some "OKC", some "Thunder", some "99", some "OKC vs. HOU"⟩

/-- A one-game input where every hypothesis of the sum-of-wins claim holds. -/
def exGood : List Row := [exRowHou, exRowOkc]

/-- A row whose `PTS` field is missing. -/
def exRowNoPts : Row :=
  ⟨some "G1", some "1", some "AAA", some "Alpha", none, some "AAA vs. BBB"⟩

/-- The opponent row of `exRowNoPts`, with 100 points. -/
def exRowPts100 : Row :=
  ⟨some "G1", some "2", some "BBB", some "Beta", some "100", none⟩

/-- A one-game input in which one side's `PTS` field is missing. -/
def exMissingPts : List Row := [exRowNoPts, exRowPts100]

/-- First row of a game whose two rows share the abbreviation `HOU`: with
matchup `"OKC @ HOU"` both sides resolve to the second row. -/
def exRowDupA : Row :=
  ⟨some "G1", some "1", some "HOU", some "Alpha", some "100", some "OKC @ HOU"⟩

/-- Second row of the duplicate-abbreviation game. -/
def exRowDupB : Row :=
  ⟨some "G1", some "2", some "HOU", some "Beta", some "90", none⟩

/-- A one-game input satisfying the stated hypotheses of the sum-of-wins
claim on which the game is nevertheless skipped. -/
def exDupAbbr : List Row := [exRowDupA, exRowDupB]

lemma countRun_eq_takeWhile (last : String) (l : List String) :
    countRun last l = (l.takeWhile (fun r => r = last)).length := by
  induction l with
  | nil => rfl
  | cons r rs ih =>
    by_cases h : r = last <;> simp [countRun, List.takeWhile_cons, h, ih]

/-- C2: `compute_streak` returns `""` on the empty list; otherwise a sign
(`"+"` iff the last element is `"W"`, `"-"` otherwise) followed by the length
of the maximal trailing run of elements equal to the last element; in
particular the three concrete examples of the claim. -/
theorem C2_compute_streak_spec :
    compute_streak [] = "" ∧
    (∀ (rs : List String) (last : String), rs.getLast? = some last →
      compute_streak rs =
        (if last = "W" then "+" else "-") ++
          toString (rs.reverse.takeWhile (fun r => r = last)).length) ∧
    compute_streak ["W", "W", "L", "W", "W", "W"] = "+3" ∧
    compute_streak ["L", "L", "W", "L"] = "-1" := by
  refine ⟨rfl, ?_, rfl, rfl⟩
  intro rs last h
  simp only [compute_streak, h, countRun_eq_takeWhile]

/-- Witness for C2 at the concrete list `["L", "W", "W"]`. -/
theorem C2_compute_streak_spec_witness :
    compute_streak ["L", "W", "W"] =
      (if "W" = "W" then "+" else "-") ++
        toString ((["L", "W", "W"].reverse.takeWhile (fun r => r = "W")).length) :=
  C2_compute_streak_spec.2.1 ["L", "W", "W"] "W" rfl

/-- C3: the home/away inference splits the matchup on whitespace; with an
`"@"` token the first token is away and the last home; otherwise with at
least 3 tokens the first is home and the last away; otherwise the first
record's abbreviation is home and the second's is away; concretely
`"HOU @ OKC"` gives away `HOU`, home `OKC`, and `"OKC vs. HOU"` gives home
`OKC`, away `HOU` (`inferCodes` returns `(home_code, away_code)`). -/
theorem C3_matchup_inference :
    (∀ (m : String) (a b : Row),
      ("@" ∈ pySplit m →
        inferCodes m a b = ((pySplit m).getLast?, (pySplit m).head?)) ∧
      ("@" ∉ pySplit m → 3 ≤ (pySplit m).length →
        inferCodes m a b = ((pySplit m).head?, (pySplit m).getLast?)) ∧
      ("@" ∉ pySplit m → (pySplit m).length < 3 →
        inferCodes m a b = (a.team_abbreviation, b.team_abbreviation))) ∧
    (∀ a b, inferCodes "HOU @ OKC" a b = (some "OKC", some "HOU")) ∧
    (∀ a b, inferCodes "OKC vs. HOU" a b = (some "OKC", some "HOU")) := by
  refine ⟨?_, fun a b => rfl, fun a b => rfl⟩
  intro m a b
  refine ⟨fun h => ?_, fun h h3 => ?_, fun h h3 => ?_⟩
  · simp [inferCodes, List.contains, List.elem_eq_mem, h]
  · simp [inferCodes, List.contains, List.elem_eq_mem, h, h3]
  · simp [inferCodes, List.contains, List.elem_eq_mem, h, Nat.not_le.mpr h3]

/-- Witness for C3: the general `"@"` case applied at `"AAA @ BBB"`. -/
theorem C3_matchup_inference_witness :
    inferCodes "AAA @ BBB" ⟨none, none, none, none, none, none⟩
        ⟨none, none, none, none, none, none⟩ =
      ((pySplit "AAA @ BBB").getLast?, (pySplit "AAA @ BBB").head?) :=
  (C3_matchup_inference.1 "AAA @ BBB" _ _).1 (by decide)

/-- C6: each record is matched to a side by comparing `team_abbreviation` to
the inferred code (a matched side's row really carries that abbreviation and
is one of the two records); when no record matches a side's code, that side
falls back positionally: first record home, second record away. -/
theorem C6_side_matching :
    ∀ (a b : Row) (hc ac : Option String),
      (lookupByCode a b hc = none ↔
        (a.team_abbreviation ≠ hc ∧ b.team_abbreviation ≠ hc)) ∧
      ((a.team_abbreviation ≠ hc ∧ b.team_abbreviation ≠ hc) →
        (pickSides a b hc ac).1 = a) ∧
      ((a.team_abbreviation ≠ ac ∧ b.team_abbreviation ≠ ac) →
        (pickSides a b hc ac).2 = b) ∧
      (∀ r, lookupByCode a b hc = some r →
        (pickSides a b hc ac).1 = r ∧ r.team_abbreviation = hc ∧ (r = a ∨ r = b)) ∧
      (∀ r, lookupByCode a b ac = some r →
        (pickSides a b hc ac).2 = r ∧ r.team_abbreviation = ac ∧ (r = a ∨ r = b)) := by
  intro a b hc ac
  have look : ∀ c : Option String,
      (lookupByCode a b c = none ↔
        (a.team_abbreviation ≠ c ∧ b.team_abbreviation ≠ c)) ∧
      (∀ r, lookupByCode a b c = some r →
        r.team_abbreviation = c ∧ (r = a ∨ r = b)) := by
    intro c
    constructor
    · unfold lookupByCode
      by_cases h1 : b.team_abbreviation = c <;> by_cases h2 : a.team_abbreviation = c <;>
        simp [h1, h2]
    · intro r hr
      unfold lookupByCode at hr
      by_cases h1 : b.team_abbreviation = c
      · simp only [h1, if_true, Option.some.injEq] at hr
        exact ⟨hr ▸ h1, Or.inr hr.symm⟩
      · by_cases h2 : a.team_abbreviation = c
        · simp only [h1, h2, if_true, if_false, Option.some.injEq] at hr
          exact ⟨hr ▸ h2, Or.inl hr.symm⟩
        · simp [h1, h2] at hr
  refine ⟨(look hc).1, fun h => ?_, fun h => ?_, fun r hr => ?_, fun r hr => ?_⟩
  · simp [pickSides, (look hc).1.mpr h]
  · simp [pickSides, (look ac).1.mpr h]
  · exact ⟨by simp [pickSides, hr], (look hc).2 r hr⟩
  · exact ⟨by simp [pickSides, hr], (look ac).2 r hr⟩

/-- Witness for C6 at concrete rows: with inferred codes matching neither
record, both sides fall back positionally. -/
theorem C6_side_matching_witness :
    (pickSides ⟨none, none, some "AAA", none, none, none⟩
        ⟨none, none, some "BBB", none, none, none⟩ (some "XXX") (some "YYY")).1 =
      ⟨none, none, some "AAA", none, none, none⟩ :=
  (C6_side_matching ⟨none, none, some "AAA", none, none, none⟩
      ⟨none, none, some "BBB", none, none, none⟩ (some "XXX") (some "YYY")).2.1
    ⟨by decide, by decide⟩

/-- C4: the `try/except` wrapper of `compute_standings_from_csv` never lets an
exception reach the caller (`standingsTop` is a total function of the body's
outcome); a normally-returning body passes its rows through, and a raising
body yields the empty standings list together with exactly one human-readable
warning built from the exception text — the entire batch is blanked. -/
theorem C4_top_level_fail_soft :
    (∀ rows : List StandRow, standingsTop (Except.ok rows) = (rows, [])) ∧
    (∀ e : String, standingsTop (Except.error e) =
      ([], ["Erro ao processar CSV de standings: " ++ e])) :=
  ⟨fun _ => rfl, fun _ => rfl⟩


lemma processGroup_pair (ts : List (String × Stats)) (a b : Row) :
    processGroup ts [a, b] =
      match parsePts (gameSides a b).1.pts, parsePts (gameSides a b).2.pts with
      | some home_pts, some away_pts =>
        if home_pts > away_pts then
          recordResult (recordResult ts (gameSides a b).1 true "W") (gameSides a b).2 false "L"
        else if home_pts < away_pts then
          recordResult (recordResult ts (gameSides a b).1 true "L") (gameSides a b).2 false "W"
        else ts
      | _, _ => ts := rfl

lemma standingsBody_perm (rows : List Row) :
    (standingsBody rows).Perm (unsortedStandings rows) :=
  List.mergeSort_perm _ _

lemma sumWins_standingsBody (rows : List Row) :
    sumWins (standingsBody rows) = sumWins (unsortedStandings rows) := by
  have h := ((standingsBody_perm rows).map (fun r : StandRow => r.wins)).sum_eq
  simpa [sumWins] using h

lemma sumLosses_standingsBody (rows : List Row) :
    sumLosses (standingsBody rows) = sumLosses (unsortedStandings rows) := by
  have h := ((standingsBody_perm rows).map (fun r : StandRow => r.losses)).sum_eq
  simpa [sumLosses] using h

lemma mem_standingsBody {rows : List Row} {r : StandRow} :
    r ∈ standingsBody rows ↔ r ∈ unsortedStandings rows :=
  (standingsBody_perm rows).mem_iff

/-- C9: a two-row group whose two resolved sides have equal parsed points is
skipped entirely — the accumulator state is unchanged, so it contributes to no
counter and no result sequence — and the computation emits no warning at all
on the non-exceptional path. -/
theorem C9_tie_skipped :
    (∀ (ts : List (String × Stats)) (a b : Row) (p : Int),
      parsePts (gameSides a b).1.pts = some p →
      parsePts (gameSides a b).2.pts = some p →
      processGroup ts [a, b] = ts) ∧
    (∀ rows : List Row, (compute_standings_from_csv rows).2 = []) := by
  refine ⟨?_, fun rows => rfl⟩
  intro ts a b p h1 h2
  rw [processGroup_pair, h1, h2]
  simp

/-- Witness for C9: a concrete 100–100 tie leaves the empty state empty. -/
theorem C9_tie_skipped_witness :
    processGroup []
      [⟨some "G1", some "1", some "AAA", none, some "100", some "AAA vs. BBB"⟩,
       ⟨some "G1", some "2", some "BBB", none, some "100", none⟩] = [] :=
  C9_tie_skipped.1 [] _ _ 100 (by decide) (by decide)

/-- C5 (amended): a two-row group is skipped when a resolved side's points
field is present, non-empty and not parseable as an integer; a missing or
empty points field does not skip the group — it is parsed as 0 points. -/
theorem C5_unparseable_pts_skips :
    (∀ (ts : List (String × Stats)) (a b : Row),
      ((∃ s, (gameSides a b).1.pts = some s ∧ s ≠ "" ∧ pyInt? s = none) ∨
       (∃ s, (gameSides a b).2.pts = some s ∧ s ≠ "" ∧ pyInt? s = none)) →
      processGroup ts [a, b] = ts) ∧
    parsePts none = some 0 ∧ parsePts (some "") = some 0 := by
  refine ⟨?_, rfl, rfl⟩
  intro ts a b h
  rw [processGroup_pair]
  rcases h with ⟨s, hs, hne, hp⟩ | ⟨s, hs, hne, hp⟩
  · have h1 : parsePts (gameSides a b).1.pts = none := by
      rw [hs]; simp [parsePts, hne, hp]
    rw [h1]
  · have h2 : parsePts (gameSides a b).2.pts = none := by
      rw [hs]; simp [parsePts, hne, hp]
    rw [h2]
    rcases parsePts (gameSides a b).1.pts with _ | q <;> rfl

/-- Witness for C5: a side with the unparseable points string `"abc"`. -/
theorem C5_unparseable_pts_skips_witness :
    processGroup []
      [⟨some "G1", some "1", some "AAA", none, some "abc", some "AAA vs. BBB"⟩,
       ⟨some "G1", some "2", some "BBB", none, some "100", none⟩] = [] :=
  C5_unparseable_pts_skips.1 [] _ _ (Or.inl ⟨"abc", by decide, by decide, by decide⟩)

/-- Counterexample to C5 as stated: in `exMissingPts` one row of the game has
no points field at all, yet the group is not skipped — the game is scored
0–100 and contributes a win and a loss. -/
theorem C5_counterexample :
    exRowNoPts.pts = none ∧
    sumWins (standingsBody exMissingPts) = 1 ∧
    sumLosses (standingsBody exMissingPts) = 1 ∧
    standingsBody exMissingPts ≠ [] := by
  refine ⟨rfl, ?_, ?_, ?_⟩
  · rw [sumWins_standingsBody]; decide
  · rw [sumLosses_standingsBody]; decide
  · intro h
    have h2 := congrArg List.length h
    rw [(standingsBody_perm exMissingPts).length_eq] at h2
    revert h2
    decide

lemma wins_applyResult_W (ih : Bool) (s : Stats) :
    (applyResult ih "W" s).wins = s.wins + 1 := by simp [applyResult]

lemma losses_applyResult_W (ih : Bool) (s : Stats) :
    (applyResult ih "W" s).losses = s.losses + 0 := by simp [applyResult]

lemma wins_applyResult_L (ih : Bool) (s : Stats) :
    (applyResult ih "L" s).wins = s.wins + 0 := by simp [applyResult]

lemma losses_applyResult_L (ih : Bool) (s : Stats) :
    (applyResult ih "L" s).losses = s.losses + 1 := by simp [applyResult]

lemma sumTS_updateStats (g : Stats → Nat) (f : Stats → Stats) (init : Stats)
    (tid : String) (d : Nat) (hf : ∀ s, g (f s) = g s + d) (hinit : g init = 0)
    (ts : List (String × Stats)) :
    ((updateStats f init tid ts).map (fun p => g p.2)).sum
      = (ts.map (fun p => g p.2)).sum + d := by
  induction ts with
  | nil => simp [updateStats, hf, hinit]
  | cons p t ih =>
    obtain ⟨k, s⟩ := p
    by_cases h : k = tid
    · simp [updateStats, h, hf]
      omega
    · simp [updateStats, h, ih]
      omega

lemma sumTS_recordResult (g : Stats → Nat) (ts : List (String × Stats))
    (row : Row) (ih : Bool) (result : String) (d : Nat)
    (h1 : truthy row.team_id = true) (h2 : truthy row.team_abbreviation = true)
    (hf : ∀ s, g (applyResult ih result s) = g s + d)
    (hinit : ∀ tid tri name, g (initStats tid tri name) = 0) :
    ((recordResult ts row ih result).map (fun p => g p.2)).sum
      = (ts.map (fun p => g p.2)).sum + d := by
  rcases hti : row.team_id with _ | tid
  · rw [hti] at h1; simp [truthy] at h1
  rcases htr : row.team_abbreviation with _ | tri
  · rw [htr] at h2; simp [truthy] at h2
  rw [hti] at h1; rw [htr] at h2
  simp only [truthy, ne_eq, decide_eq_true_eq] at h1 h2
  simp only [recordResult, hti, htr, if_neg h1, if_neg h2]
  exact sumTS_updateStats g _ _ tid d hf (hinit tid tri row.team_name) ts

lemma wellFormed_shape {g : List Row} (h : wellFormedGroup g = true) :
    ∃ a b, g = [a, b] := by
  match g with
  | [a, b] => exact ⟨a, b, rfl⟩
  | [] => simp [wellFormedGroup] at h
  | [a] => simp [wellFormedGroup] at h
  | a :: b :: c :: t => simp [wellFormedGroup] at h

lemma wellFormed_pair {a b : Row} (h : wellFormedGroup [a, b] = true) :
    truthy a.team_id = true ∧ truthy a.team_abbreviation = true ∧
    truthy b.team_id = true ∧ truthy b.team_abbreviation = true ∧
    ∃ p q, parsePts a.pts = some p ∧ parsePts b.pts = some q ∧ p ≠ q := by
  have hx : wellFormedGroup [a, b] =
      (truthy a.team_id && truthy a.team_abbreviation &&
       truthy b.team_id && truthy b.team_abbreviation &&
       (match a.pts, b.pts with
        | some s1, some s2 =>
          s1 ≠ "" && s2 ≠ "" &&
          (match pyInt? s1, pyInt? s2 with
           | some p, some q => decide (p ≠ q)
           | _, _ => false)
        | _, _ => false)) := rfl
  rw [hx] at h
  simp only [Bool.and_eq_true] at h
  obtain ⟨⟨⟨⟨ha1, ha2⟩, hb1⟩, hb2⟩, hpts⟩ := h
  refine ⟨ha1, ha2, hb1, hb2, ?_⟩
  rcases hpa : a.pts with _ | s1 <;> rw [hpa] at hpts
  · simp at hpts
  rcases hpb : b.pts with _ | s2 <;> rw [hpb] at hpts
  · simp at hpts
  simp only [Bool.and_eq_true, ne_eq, decide_eq_true_eq] at hpts
  obtain ⟨⟨hne1, hne2⟩, hint⟩ := hpts
  rcases hq1 : pyInt? s1 with _ | p <;> rw [hq1] at hint
  · simp at hint
  rcases hq2 : pyInt? s2 with _ | q <;> rw [hq2] at hint
  · simp at hint
  simp only [decide_eq_true_eq] at hint
  refine ⟨p, q, ?_, ?_, hint⟩
  · simp [parsePts, hne1, hq1]
  · simp [parsePts, hne2, hq2]

lemma sidesOk_pair {a b : Row} (h : sidesOk [a, b] = true) :
    ((gameSides a b).1 = a ∧ (gameSides a b).2 = b) ∨
    ((gameSides a b).1 = b ∧ (gameSides a b).2 = a) := by
  have hx : sidesOk [a, b] =
      (((gameSides a b).1 = a && (gameSides a b).2 = b) ||
       ((gameSides a b).1 = b && (gameSides a b).2 = a)) := rfl
  rw [hx] at h
  simpa [Bool.or_eq_true, Bool.and_eq_true, decide_eq_true_eq] using h

lemma processGroup_wf_counts (ts : List (String × Stats)) (a b : Row)
    (hwf : wellFormedGroup [a, b] = true) (hs : sidesOk [a, b] = true) :
    sumWinsTS (processGroup ts [a, b]) = sumWinsTS ts + 1 ∧
    sumLossesTS (processGroup ts [a, b]) = sumLossesTS ts + 1 := by
  obtain ⟨ha1, ha2, hb1, hb2, p, q, hpa, hpb, hpq⟩ := wellFormed_pair hwf
  rw [processGroup_pair]
  have key : ∀ (h w : Row) (hp hq : Int),
      truthy h.team_id = true → truthy h.team_abbreviation = true →
      truthy w.team_id = true → truthy w.team_abbreviation = true →
      parsePts h.pts = some hp → parsePts w.pts = some hq → hp ≠ hq →
      sumWinsTS (match parsePts h.pts, parsePts w.pts with
        | some home_pts, some away_pts =>
          if home_pts > away_pts then
            recordResult (recordResult ts h true "W") w false "L"
          else if home_pts < away_pts then
            recordResult (recordResult ts h true "L") w false "W"
          else ts
        | _, _ => ts) = sumWinsTS ts + 1 ∧
      sumLossesTS (match parsePts h.pts, parsePts w.pts with
        | some home_pts, some away_pts =>
          if home_pts > away_pts then
            recordResult (recordResult ts h true "W") w false "L"
          else if home_pts < away_pts then
            recordResult (recordResult ts h true "L") w false "W"
          else ts
        | _, _ => ts) = sumLossesTS ts + 1 := by
    intro h w hp hq th1 th2 tw1 tw2 eph epw hne
    rw [eph, epw]
    dsimp only
    rcases lt_trichotomy hp hq with hlt | heq | hgt
    · rw [if_neg (by omega), if_pos hlt]
      constructor
      · show ((recordResult (recordResult ts h true "L") w false "W").map
            (fun p => p.2.wins)).sum = (ts.map (fun p => p.2.wins)).sum + 1
        rw [sumTS_recordResult _ _ _ _ _ 1 tw1 tw2 (wins_applyResult_W false)
              (fun _ _ _ => rfl),
            sumTS_recordResult _ _ _ _ _ 0 th1 th2 (wins_applyResult_L true)
              (fun _ _ _ => rfl)]
      · show ((recordResult (recordResult ts h true "L") w false "W").map
            (fun p => p.2.losses)).sum = (ts.map (fun p => p.2.losses)).sum + 1
        rw [sumTS_recordResult _ _ _ _ _ 0 tw1 tw2 (losses_applyResult_W false)
              (fun _ _ _ => rfl),
            sumTS_recordResult _ _ _ _ _ 1 th1 th2 (losses_applyResult_L true)
              (fun _ _ _ => rfl)]
    · exact absurd heq hne
    · rw [if_pos hgt]
      constructor
      · show ((recordResult (recordResult ts h true "W") w false "L").map
            (fun p => p.2.wins)).sum = (ts.map (fun p => p.2.wins)).sum + 1
        rw [sumTS_recordResult _ _ _ _ _ 0 tw1 tw2 (wins_applyResult_L false)
              (fun _ _ _ => rfl),
            sumTS_recordResult _ _ _ _ _ 1 th1 th2 (wins_applyResult_W true)
              (fun _ _ _ => rfl)]
      · show ((recordResult (recordResult ts h true "W") w false "L").map
            (fun p => p.2.losses)).sum = (ts.map (fun p => p.2.losses)).sum + 1
        rw [sumTS_recordResult _ _ _ _ _ 1 tw1 tw2 (losses_applyResult_L false)
              (fun _ _ _ => rfl),
            sumTS_recordResult _ _ _ _ _ 0 th1 th2 (losses_applyResult_W true)
              (fun _ _ _ => rfl)]
  rcases sidesOk_pair hs with ⟨e1, e2⟩ | ⟨e1, e2⟩
  · rw [e1, e2]
    exact key a b p q ha1 ha2 hb1 hb2 hpa hpb hpq
  · rw [e1, e2]
    exact key b a q p hb1 hb2 ha1 ha2 hpb hpa (Ne.symm hpq)

lemma fold_counts (groups : List (String × List Row)) :
    ∀ ts : List (String × Stats),
      (∀ g ∈ groups, wellFormedGroup g.2 = true ∧ sidesOk g.2 = true) →
      sumWinsTS (groups.foldl (fun ts g => processGroup ts g.2) ts)
          = sumWinsTS ts + groups.length ∧
      sumLossesTS (groups.foldl (fun ts g => processGroup ts g.2) ts)
          = sumLossesTS ts + groups.length := by
  induction groups with
  | nil => intro ts _; simp
  | cons g t ih =>
    intro ts h
    obtain ⟨hg, ht⟩ := List.forall_mem_cons.mp h
    obtain ⟨a, b, hab⟩ := wellFormed_shape hg.1
    rw [hab] at hg
    have step := processGroup_wf_counts ts a b hg.1 hg.2
    have rest := ih (processGroup ts [a, b]) ht
    simp only [List.foldl_cons, List.length_cons, hab]
    rw [rest.1, rest.2, step.1, step.2]
    omega

lemma addToGroups_keys (gid : String) (r : Row) (gs : List (String × List Row)) :
    (addToGroups gs gid r).map Prod.fst =
      if gid ∈ gs.map Prod.fst then gs.map Prod.fst
      else gs.map Prod.fst ++ [gid] := by
  induction gs with
  | nil => simp [addToGroups]
  | cons p t ih =>
    obtain ⟨g, rs⟩ := p
    by_cases h : g = gid
    · simp [addToGroups, h]
    · simp only [addToGroups, if_neg h, List.map_cons, List.mem_cons]
      rw [ih]
      by_cases hm : gid ∈ t.map Prod.fst
      · simp [hm, Ne.symm h]
      · simp [hm, Ne.symm h]

lemma groupByGid_keys_aux (rows : List Row) :
    ∀ gs : List (String × List Row),
      (rows.foldl
        (fun gs r =>
          match r.game_id with
          | none => gs
          | some g => if g = "" then gs else addToGroups gs g r)
        gs).map Prod.fst =
      rows.foldl
        (fun acc r =>
          match r.game_id with
          | none => acc
          | some g => if g = "" then acc else if g ∈ acc then acc else acc ++ [g])
        (gs.map Prod.fst) := by
  induction rows with
  | nil => intro gs; rfl
  | cons r t ih =>
    intro gs
    simp only [List.foldl_cons]
    rcases hg : r.game_id with _ | g
    · exact ih gs
    · by_cases he : g = ""
      · simp only [he, if_pos rfl]
        exact ih gs
      · simp only [if_neg he]
        rw [ih (addToGroups gs g r), addToGroups_keys]

lemma groupByGid_keys (rows : List Row) :
    (groupByGid rows).map Prod.fst = distinctGameIds rows :=
  groupByGid_keys_aux rows []

lemma length_groupByGid (rows : List Row) :
    (groupByGid rows).length = (distinctGameIds rows).length := by
  rw [← groupByGid_keys, List.length_map]

lemma sumWins_unsorted (rows : List Row) :
    sumWins (unsortedStandings rows) = sumWinsTS (teamStatsOf rows) := by
  unfold sumWins unsortedStandings sumWinsTS
  rw [List.map_map]
  rfl

lemma sumLosses_unsorted (rows : List Row) :
    sumLosses (unsortedStandings rows) = sumLossesTS (teamStatsOf rows) := by
  unfold sumLosses unsortedStandings sumLossesTS
  rw [List.map_map]
  rfl

/-- C1 (amended): for every input whose game groups are well formed (each
non-empty game id on exactly two rows, truthy team ids and abbreviations,
distinct integer points) and whose side-matching resolves the two rows of
each game to distinct sides, total wins = total losses = number of distinct
game ids. -/
theorem C1_sum_wins_losses :
    ∀ rows : List Row,
      (∀ g ∈ groupByGid rows, wellFormedGroup g.2 = true ∧ sidesOk g.2 = true) →
      sumWins (standingsBody rows) = (distinctGameIds rows).length ∧
      sumLosses (standingsBody rows) = (distinctGameIds rows).length := by
  intro rows h
  have hf := fold_counts (groupByGid rows) [] h
  constructor
  · rw [sumWins_standingsBody, sumWins_unsorted]
    show sumWinsTS ((groupByGid rows).foldl (fun ts g => processGroup ts g.2) [])
        = (distinctGameIds rows).length
    rw [hf.1, ← length_groupByGid]
    simp [sumWinsTS]
  · rw [sumLosses_standingsBody, sumLosses_unsorted]
    show sumLossesTS ((groupByGid rows).foldl (fun ts g => processGroup ts g.2) [])
        = (distinctGameIds rows).length
    rw [hf.2, ← length_groupByGid]
    simp [sumLossesTS]

/-- Witness for C1 on the well-formed one-game input `exGood`. -/
theorem C1_sum_wins_losses_witness :
    sumWins (standingsBody exGood) = (distinctGameIds exGood).length :=
  (C1_sum_wins_losses exGood (by decide)).1

/-- Counterexample to C1 as stated: in `exDupAbbr` the single game satisfies
every stated hypothesis (two rows for the one game id, truthy team ids and
abbreviations, distinct integer points 100 ≠ 90), yet both sides resolve to
the second row, the game is discarded as a tie of that row with itself, and
the total number of wins is 0, not 1. -/
theorem C1_counterexample :
    groupByGid exDupAbbr = [("G1", [exRowDupA, exRowDupB])] ∧
    wellFormedGroup [exRowDupA, exRowDupB] = true ∧
    (distinctGameIds exDupAbbr).length = 1 ∧
    sumWins (standingsBody exDupAbbr) = 0 ∧
    sumLosses (standingsBody exDupAbbr) = 0 := by
  refine ⟨by decide, by decide, by decide, ?_, ?_⟩
  · rw [sumWins_standingsBody]; decide
  · rw [sumLosses_standingsBody]; decide

lemma updateStats_forall (P : Stats → Prop) (f : Stats → Stats) (init : Stats)
    (tid : String) (ts : List (String × Stats)) (hts : ∀ p ∈ ts, P p.2)
    (hf : ∀ s, P s → P (f s)) (hfinit : P (f init)) :
    ∀ p ∈ updateStats f init tid ts, P p.2 := by
  induction ts with
  | nil =>
    intro p hp
    simp only [updateStats, List.mem_singleton] at hp
    rw [hp]
    exact hfinit
  | cons q t ih =>
    obtain ⟨k, s⟩ := q
    intro p hp
    by_cases h : k = tid
    · simp only [updateStats, if_pos h, List.mem_cons] at hp
      rcases hp with rfl | hp
      · exact hf s (hts (k, s) (List.mem_cons_self _ _))
      · exact hts p (List.mem_cons_of_mem _ hp)
    · simp only [updateStats, if_neg h, List.mem_cons] at hp
      rcases hp with rfl | hp
      · exact hts (k, s) (List.mem_cons_self _ _)
      · exact ih (fun q hq => hts q (List.mem_cons_of_mem _ hq)) p hp

lemma recordResult_forall (P : Stats → Prop) (ts : List (String × Stats))
    (row : Row) (ih : Bool) (result : String) (hts : ∀ p ∈ ts, P p.2)
    (hf : ∀ s, P s → P (applyResult ih result s))
    (hfinit : ∀ tid tri name, P (applyResult ih result (initStats tid tri name))) :
    ∀ p ∈ recordResult ts row ih result, P p.2 := by
  unfold recordResult
  rcases row.team_id with _ | tid
  · exact hts
  rcases row.team_abbreviation with _ | tri
  · exact hts
  by_cases h1 : tid = ""
  · simp only [if_pos h1]; exact hts
  by_cases h2 : tri = ""
  · simp only [if_neg h1, if_pos h2]; exact hts
  simp only [if_neg h1, if_neg h2]
  exact updateStats_forall P _ _ tid ts hts hf (hfinit tid tri row.team_name)

lemma processGroup_forall (P : Stats → Prop) (ts : List (String × Stats))
    (g : List Row) (hts : ∀ p ∈ ts, P p.2)
    (hf : ∀ ih result s, P s → P (applyResult ih result s))
    (hfinit : ∀ ih result tid tri name,
      P (applyResult ih result (initStats tid tri name))) :
    ∀ p ∈ processGroup ts g, P p.2 := by
  match g with
  | [] => exact hts
  | [a] => exact hts
  | a :: b :: c :: t => exact hts
  | [a, b] =>
    rw [processGroup_pair]
    cases h1 : parsePts (gameSides a b).1.pts with
    | none => exact hts
    | some hp =>
      cases h2 : parsePts (gameSides a b).2.pts with
      | none => exact hts
      | some ap =>
        dsimp only
        by_cases hgt : hp > ap
        · rw [if_pos hgt]
          exact recordResult_forall P _ _ false "L"
            (recordResult_forall P ts _ true "W" hts (hf true "W")
              (fun tid tri name => hfinit true "W" tid tri name))
            (hf false "L") (fun tid tri name => hfinit false "L" tid tri name)
        · rw [if_neg hgt]
          by_cases hlt : hp < ap
          · rw [if_pos hlt]
            exact recordResult_forall P _ _ false "W"
              (recordResult_forall P ts _ true "L" hts (hf true "L")
                (fun tid tri name => hfinit true "L" tid tri name))
              (hf false "W") (fun tid tri name => hfinit false "W" tid tri name)
          · rw [if_neg hlt]
            exact hts

lemma teamStats_forall (P : Stats → Prop) (rows : List Row)
    (hf : ∀ ih result s, P s → P (applyResult ih result s))
    (hfinit : ∀ ih result tid tri name,
      P (applyResult ih result (initStats tid tri name))) :
    ∀ p ∈ teamStatsOf rows, P p.2 := by
  unfold teamStatsOf
  generalize groupByGid rows = groups
  have gen : ∀ (gs : List (String × List Row)) (ts : List (String × Stats)),
      (∀ p ∈ ts, P p.2) →
      ∀ p ∈ gs.foldl (fun ts g => processGroup ts g.2) ts, P p.2 := by
    intro gs
    induction gs with
    | nil => intro ts hts; exact hts
    | cons g t ih =>
      intro ts hts
      exact ih _ (processGroup_forall P ts g.2 hts hf hfinit)
  exact gen groups [] (by intro p hp; simp at hp)

lemma mem_standingsBody_stats {rows : List Row} {r : StandRow}
    (h : r ∈ standingsBody rows) :
    ∃ p ∈ teamStatsOf rows, r = mkRow p.2 := by
  rw [mem_standingsBody] at h
  unfold unsortedStandings at h
  obtain ⟨p, hp, hr⟩ := List.mem_map.mp h
  exact ⟨p, hp, hr.symm⟩

lemma applyResult_split (ih : Bool) (result : String) (s : Stats)
    (hs : s.home_w + s.away_w = s.wins ∧ s.home_l + s.away_l = s.losses) :
    (applyResult ih result s).home_w + (applyResult ih result s).away_w
        = (applyResult ih result s).wins ∧
    (applyResult ih result s).home_l + (applyResult ih result s).away_l
        = (applyResult ih result s).losses := by
  by_cases hres : result = "W" <;> cases ih <;>
    simp [applyResult, hres] <;> omega

/-- C7: in every returned standings row, home wins plus road wins equals the
win total and home losses plus road losses equals the loss total (each
recorded game result bumps exactly one win/loss counter and exactly the
matching home/road counter). -/
theorem C7_home_road_split :
    ∀ (rows : List Row) (r : StandRow), r ∈ standingsBody rows →
      r.home_w + r.road_w = r.wins ∧ r.home_l + r.road_l = r.losses := by
  intro rows r hr
  obtain ⟨p, hp, rfl⟩ := mem_standingsBody_stats hr
  have inv := teamStats_forall
    (fun s => s.home_w + s.away_w = s.wins ∧ s.home_l + s.away_l = s.losses)
    rows (fun ih result s hs => applyResult_split ih result s hs)
    (fun ih result tid tri name =>
      applyResult_split ih result (initStats tid tri name) (by simp [initStats]))
    p hp
  exact ⟨inv.1, inv.2⟩

/-- Witness for C7: the Thunder row of the one-game input `exGood`. -/
theorem C7_home_road_split_witness :
    (mkRow (applyResult true "L" (initStats "20" "OKC" (some "Thunder")))).home_w +
        (mkRow (applyResult true "L" (initStats "20" "OKC" (some "Thunder")))).road_w =
      (mkRow (applyResult true "L" (initStats "20" "OKC" (some "Thunder")))).wins ∧
    (mkRow (applyResult true "L" (initStats "20" "OKC" (some "Thunder")))).home_l +
        (mkRow (applyResult true "L" (initStats "20" "OKC" (some "Thunder")))).road_l =
      (mkRow (applyResult true "L" (initStats "20" "OKC" (some "Thunder")))).losses :=
  C7_home_road_split exGood _ (mem_standingsBody.mpr (by
    rw [show unsortedStandings exGood =
      [mkRow (applyResult true "L" (initStats "20" "OKC" (some "Thunder"))),
       mkRow (applyResult false "W" (initStats "10" "HOU" (some "Rockets")))] from rfl]
    exact List.mem_cons_self _ _))

lemma applyResult_played (ih : Bool) (result : String) (s : Stats) :
    (applyResult ih result s).wins + (applyResult ih result s).losses
      = s.wins + s.losses + 1 := by
  by_cases hres : result = "W" <;> simp [applyResult, hres] <;> omega

/-- C10 (amended): every returned standings row has at least one recorded
game (`wins + losses ≥ 1`, because a team accumulator is only created when a
result is recorded for it), so `win_pct` always equals
`wins / (wins + losses)` and the division-by-zero guard branch is never
taken; `0.0` can still be *emitted* — as the genuine quotient of a winless
team — contrary to the claim's last conjunct. -/
theorem C10_win_pct :
    ∀ (rows : List Row) (r : StandRow), r ∈ standingsBody rows →
      1 ≤ r.wins + r.losses ∧
      r.win_pct = (r.wins : Rat) / ((r.wins : Rat) + (r.losses : Rat)) := by
  intro rows r hr
  obtain ⟨p, hp, rfl⟩ := mem_standingsBody_stats hr
  have inv := teamStats_forall (fun s => 1 ≤ s.wins + s.losses) rows
    (fun ih result s hs => by
      show 1 ≤ (applyResult ih result s).wins + (applyResult ih result s).losses
      rw [applyResult_played]
      omega)
    (fun ih result tid tri name => by
      show 1 ≤ (applyResult ih result (initStats tid tri name)).wins +
        (applyResult ih result (initStats tid tri name)).losses
      rw [applyResult_played]
      simp [initStats])
    p hp
  refine ⟨inv, ?_⟩
  show (mkRow p.2).win_pct = _
  have hne : p.2.wins + p.2.losses ≠ 0 := by
    have : 1 ≤ p.2.wins + p.2.losses := inv
    omega
  simp only [mkRow, if_neg hne]
  push_cast
  rfl

/-- Witness for C10: the Rockets row of the one-game input `exGood`. -/
theorem C10_win_pct_witness :
    1 ≤ (mkRow (applyResult false "W" (initStats "10" "HOU" (some "Rockets")))).wins +
        (mkRow (applyResult false "W" (initStats "10" "HOU" (some "Rockets")))).losses ∧
    (mkRow (applyResult false "W" (initStats "10" "HOU" (some "Rockets")))).win_pct =
      ((mkRow (applyResult false "W" (initStats "10" "HOU" (some "Rockets")))).wins : Rat) /
        (((mkRow (applyResult false "W" (initStats "10" "HOU" (some "Rockets")))).wins : Rat) +
          ((mkRow (applyResult false "W" (initStats "10" "HOU" (some "Rockets")))).losses : Rat)) :=
  C10_win_pct exGood _ (mem_standingsBody.mpr (by
    rw [show unsortedStandings exGood =
      [mkRow (applyResult true "L" (initStats "20" "OKC" (some "Thunder"))),
       mkRow (applyResult false "W" (initStats "10" "HOU" (some "Rockets")))] from rfl]
    exact List.mem_cons_of_mem _ (List.mem_cons_self _ _)))

/-- Counterexample to C10 as stated: on the input `exGood` the losing team's
row is emitted with `win_pct` equal to `0`, the same value as the
division-by-zero guard — `0.0` *is* an emitted `win_pct`. -/
theorem C10_counterexample :
    (0 : Rat) ∈ (standingsBody exGood).map (fun r => r.win_pct) := by
  have h := ((standingsBody_perm exGood).map (fun r => r.win_pct)).mem_iff
    (a := (0 : Rat))
  rw [h]
  rw [show unsortedStandings exGood =
    [mkRow (applyResult true "L" (initStats "20" "OKC" (some "Thunder"))),
     mkRow (applyResult false "W" (initStats "10" "HOU" (some "Rockets")))] from rfl]
  simp only [List.map_cons, List.map_nil, List.mem_cons]
  left
  show (0 : Rat) =
    (mkRow (applyResult true "L" (initStats "20" "OKC" (some "Thunder")))).win_pct
  rw [show applyResult true "L" (initStats "20" "OKC" (some "Thunder")) =
    { team_id := pyInt? "20", tricode := some "OKC", team := some "Thunder",
      city := "", name := some "Thunder", conf := confOf (some "OKC"),
      wins := 0, losses := 1, home_w := 0, home_l := 1, away_w := 0, away_l := 0,
      results := ["L"], home_results := ["L"], away_results := [] } from rfl]
  norm_num [mkRow]

lemma keyLe_total (a b : StandRow) : (keyLe a b || keyLe b a) = true := by
  unfold keyLe
  by_cases h : a.win_pct = b.win_pct
  · rw [if_pos h, if_pos h.symm]
    by_cases hw : a.wins = b.wins
    · rw [if_pos hw, if_pos hw.symm]
      rcases le_total (a.team.getD "") (b.team.getD "") with hle | hle
      · simp [hle]
      · simp [hle]
    · rw [if_neg hw, if_neg (Ne.symm hw)]
      rcases Nat.lt_or_ge a.wins b.wins with hlt | hge
      · simp [hlt]
      · have hgt : b.wins < a.wins := by omega
        simp [hgt]
  · rw [if_neg h, if_neg (Ne.symm h)]
    rcases lt_or_gt_of_ne h with hlt | hgt
    · simp [hlt]
    · simp [hgt]

lemma keyLe_trans (a b c : StandRow) (h1 : keyLe a b = true) (h2 : keyLe b c = true) :
    keyLe a c = true := by
  unfold keyLe at h1 h2 ⊢
  by_cases hab : a.win_pct = b.win_pct <;> by_cases hbc : b.win_pct = c.win_pct
  · have hac : a.win_pct = c.win_pct := hab.trans hbc
    rw [if_pos hab] at h1
    rw [if_pos hbc] at h2
    rw [if_pos hac]
    by_cases hw1 : a.wins = b.wins <;> by_cases hw2 : b.wins = c.wins
    · rw [if_pos hw1] at h1
      rw [if_pos hw2] at h2
      rw [if_pos (hw1.trans hw2)]
      simp only [decide_eq_true_eq] at h1 h2 ⊢
      exact le_trans h1 h2
    · rw [if_pos hw1] at h1
      rw [if_neg hw2] at h2
      simp only [decide_eq_true_eq] at h2
      have hne : ¬ a.wins = c.wins := by omega
      rw [if_neg hne]
      simp only [decide_eq_true_eq]
      omega
    · rw [if_neg hw1] at h1
      rw [if_pos hw2] at h2
      simp only [decide_eq_true_eq] at h1
      have hne : ¬ a.wins = c.wins := by omega
      rw [if_neg hne]
      simp only [decide_eq_true_eq]
      omega
    · rw [if_neg hw1] at h1
      rw [if_neg hw2] at h2
      simp only [decide_eq_true_eq] at h1 h2
      have hne : ¬ a.wins = c.wins := by omega
      rw [if_neg hne]
      simp only [decide_eq_true_eq]
      omega
  · rw [if_neg hbc] at h2
    simp only [decide_eq_true_eq] at h2
    have hca : c.win_pct < a.win_pct := by rw [hab]; exact h2
    rw [if_neg (ne_of_gt hca)]
    simp only [decide_eq_true_eq]
    exact hca
  · rw [if_neg hab] at h1
    simp only [decide_eq_true_eq] at h1
    have hca : c.win_pct < a.win_pct := by rw [← hbc]; exact h1
    rw [if_neg (ne_of_gt hca)]
    simp only [decide_eq_true_eq]
    exact hca
  · rw [if_neg hab] at h1
    rw [if_neg hbc] at h2
    simp only [decide_eq_true_eq] at h1 h2
    have hca : c.win_pct < a.win_pct := lt_trans h2 h1
    rw [if_neg (ne_of_gt hca)]
    simp only [decide_eq_true_eq]
    exact hca

lemma keyLe_refl (r : StandRow) : keyLe r r = true := by
  unfold keyLe
  simp

lemma keyLe_wins {r1 r2 : StandRow} (h : keyLe r1 r2 = true)
    (hpct : r1.win_pct = r2.win_pct) : r2.wins ≤ r1.wins := by
  unfold keyLe at h
  rw [if_pos hpct] at h
  by_cases hw : r1.wins = r2.wins
  · omega
  · rw [if_neg hw] at h
    simp only [decide_eq_true_eq] at h
    omega

/-- C8: the returned standings are sorted by the comparison behind
`(-win_pct, -wins, team or "")` — descending win percentage, then descending
wins (so a `(0.6, 6 wins)` row never comes after a `(0.6, 5 wins)` row,
regardless of names), then team name ascending — and the sort is stable:
any selection of pairwise-tied rows keeps the relative order it has in the
pre-sort list (which lists teams in order of first appearance during game
processing, since a team's accumulator is appended when its first result is
recorded). -/
theorem C8_sort_order :
    ∀ rows : List Row,
      (standingsBody rows).Pairwise (fun r1 r2 => keyLe r1 r2 = true) ∧
      (standingsBody rows).Pairwise
        (fun r1 r2 => r1.win_pct = r2.win_pct → r2.wins ≤ r1.wins) ∧
      (∀ c : List StandRow, c.Sublist (unsortedStandings rows) →
        (∀ r1 ∈ c, ∀ r2 ∈ c, keyLe r1 r2 = true) →
        c.Sublist (standingsBody rows)) := by
  intro rows
  have hs := @List.sorted_mergeSort StandRow keyLe keyLe_trans keyLe_total
    (unsortedStandings rows)
  refine ⟨hs, hs.imp ?_, ?_⟩
  · intro r1 r2 h hpct
    exact keyLe_wins h hpct
  · intro c hsub hties
    exact List.sublist_mergeSort keyLe_trans keyLe_total
      (List.pairwise_of_forall_mem_list hties) hsub

/-- Witness for C8: the singleton selection of the Thunder row is kept as a
sublist of the sorted output of `exGood`. -/
theorem C8_sort_order_witness :
    [mkRow (applyResult true "L" (initStats "20" "OKC" (some "Thunder")))].Sublist
      (standingsBody exGood) :=
  (C8_sort_order exGood).2.2
    [mkRow (applyResult true "L" (initStats "20" "OKC" (some "Thunder")))]
    (by
      rw [show unsortedStandings exGood =
        [mkRow (applyResult true "L" (initStats "20" "OKC" (some "Thunder"))),
         mkRow (applyResult false "W" (initStats "10" "HOU" (some "Rockets")))] from rfl]
      exact (List.nil_sublist _).cons₂ _)
    (by
      intro r1 h1 r2 h2
      rw [List.mem_singleton] at h1 h2
      rw [h1, h2]
      exact keyLe_refl _)
